import Mathlib

/-!
Verification of the rust-chord DHT node.

This file embeds the parts of the source needed by the claims:

* `src/routing/identifier.rs` — 256-bit ring identifiers, wrapping add/sub,
  the `is_between` predicate and `leading_zeros`;
* `src/routing/mod.rs` — the routing table and `closest_peer`;
* `src/handler/p2p.rs` — the P2P request handlers (`notify_predecessor`,
  `put_to_storage`, `handle_storage_put`, `handle_predecessor_notify`);
* `src/handler/api.rs` — `handle_dht_put`;
* `src/stabilization.rs` — `update_successor`, `update_fingers`, `stabilize`;
* `src/message/mod.rs`, `src/message/api.rs`, `src/message/p2p.rs`,
  `src/network.rs` — the framed wire codec (`Message::parse`,
  `Message::write_to`, `Connection::send`).

Machine integers are modelled as `Nat` with explicit reductions modulo
`2 ^ w`.  The SHA-256 hash that produces identifiers from addresses and keys
is kept abstract: every definition that the Rust code makes generic over the
`Identify` trait takes the trait method as an explicit function argument
`ident : T → Identifier` (respectively `identK : Key → Identifier`), exactly
as the source's `Routing<T: Identify>` is generic.  Witnesses instantiate it
with concrete executable functions.
-/

namespace Chord

/-- Size of the identifier circle: all identifiers live modulo `2 ^ 256`
(`bigint::U256` in the source). -/

def ringSize : Nat := 2 ^ 256

/-- A 256 bit identifier on the identifier circle
(`Identifier(U256)` in `src/routing/identifier.rs`). -/

abbrev Identifier := Fin ringSize

/-- Builds an identifier from a natural number, reducing modulo `2 ^ 256`. -/
def mkId (n : Nat) : Identifier :=
  ⟨n % ringSize, Nat.mod_lt _ (Nat.pos_pow_of_pos 256 (by omega))⟩

/-- Wrapping subtraction on the identifier circle
(`U256::overflowing_sub` in the source, used by `Sub for Identifier`). -/

def idSub (a b : Identifier) : Identifier :=
  ⟨(a.val + (ringSize - b.val)) % ringSize,
   Nat.mod_lt _ (Nat.pos_pow_of_pos 256 (by omega))⟩

/-- Wrapping addition on the identifier circle
(`U256::overflowing_add` in the source, used by `Add for Identifier`). -/

def idAdd (a b : Identifier) : Identifier :=
  ⟨(a.val + b.val) % ringSize,
   Nat.mod_lt _ (Nat.pos_pow_of_pos 256 (by omega))⟩

/-- `Identifier::with_bit(index)`: the identifier with only bit `index` set.
The source panics when `index` exceeds the bit width; we reduce modulo the
ring size, which agrees with the source on every in-range index. -/

def withBit (index : Nat) : Identifier := mkId (2 ^ index)

/-- `Identifier::leading_zeros`: leading zero bits of the 256-bit value.
`U256::leading_zeros` returns `256 - bitlength`, which is `256` at zero and
`255 - log2` otherwise. -/

def leadingZeros (a : Identifier) : Nat :=
  if a.val = 0 then 256 else 255 - Nat.log2 a.val

/-- `Identifier::is_between(first, second)`:
`(second - self) < (second - first)` with wrapping subtraction, i.e.
`self ∈ (first, second]` on the circle. -/

def isBetween (self first second : Identifier) : Bool :=
  decide ((idSub second self).val < (idSub second first).val)

/-- Container for a value and its cached identifier
(`IdentifierValue<T>` in `src/routing/identifier.rs`). -/

structure IdentifierValue (T : Type) where
  value : T
  identifier : Identifier
deriving DecidableEq, Repr

/-- `IdentifierValue::new`: computes the identifier of `value` with the
`Identify` trait method (passed here as `ident`) and caches it. -/

def IdentifierValue.new {T : Type} (ident : T → Identifier) (value : T) :
    IdentifierValue T :=
  ⟨value, ident value⟩

/-- The routing table (`Routing<T>` in `src/routing/mod.rs`). -/
structure Routing (T : Type) where
  current : IdentifierValue T
  predecessor : IdentifierValue T
  successor : IdentifierValue T
  finger_table : List (IdentifierValue T)
deriving DecidableEq, Repr

namespace Routing

variable {T : Type}

/-- `Routing::new`. -/
def new (ident : T → Identifier) (current predecessor successor : T)
    (finger_table : List T) : Routing T :=
  ⟨IdentifierValue.new ident current, IdentifierValue.new ident predecessor,
   IdentifierValue.new ident successor,
   finger_table.map (IdentifierValue.new ident)⟩

/-- `Routing::set_predecessor`. -/
def set_predecessor (ident : T → Identifier) (r : Routing T) (new_pred : T) :
    Routing T :=
  { r with predecessor := IdentifierValue.new ident new_pred }

/-- `Routing::set_successor`. -/
def set_successor (ident : T → Identifier) (r : Routing T) (new_succ : T) :
    Routing T :=
  { r with successor := IdentifierValue.new ident new_succ }

/-- `Routing::set_finger`.  The source writes `finger_table[index] = …`,
which panics out of bounds; all call sites in the source keep
`index < fingers()`, where `List.set` agrees with the source. -/
def set_finger (ident : T → Identifier) (r : Routing T) (index : Nat)
    (finger : T) : Routing T :=
  { r with finger_table := r.finger_table.set index (IdentifierValue.new ident finger) }

/-- `Routing::fingers`: the number of fingers. -/
def fingers (r : Routing T) : Nat := r.finger_table.length

/-- `Routing::responsible_for`:
`identifier.is_between(predecessor.id, current.id)`. -/
def responsible_for (r : Routing T) (identifier : Identifier) : Bool :=
  isBetween identifier r.predecessor.identifier r.current.identifier

/-- `Routing::successor_responsible_for`:
`identifier.is_between(current.id, successor.id)`. -/
def successor_responsible_for (r : Routing T) (identifier : Identifier) : Bool :=
  isBetween identifier r.current.identifier r.successor.identifier

/-- `Routing::closest_peer`. -/
def closest_peer (r : Routing T) (identifier : Identifier) :
    IdentifierValue T :=
  if r.responsible_for identifier then r.current
  else if r.successor_responsible_for identifier then r.successor
  else
    let diff := idSub identifier r.current.identifier
    let zeros := leadingZeros diff
    (r.finger_table.get? zeros).getD r.successor

end Routing

/-- `Stabilization::update_successor`, after the `PredecessorNotify`
round-trip to the snapshotted successor returned `new_successor`
(`src/stabilization.rs:96-124`): if
`new_successor.identifier().is_between(current_id, successor_id)` the
successor is replaced, otherwise the routing table is untouched. -/

def update_successor_candidate {T : Type} (ident : T → Identifier)
    (r : Routing T) (new_successor : T) : Routing T :=
  if isBetween (ident new_successor) r.current.identifier r.successor.identifier
  then r.set_successor ident new_successor
  else r

/-- Identify implementation for socket addresses: the source hashes only the
IP octets, never the port (`Identify for SocketAddrV4/V6` in
`src/routing/identifier.rs`).  For the counterexample an address is a pair
(ip, port) and the hash of an ip is kept abstractly injective on the ips in
play; two addresses with the same ip always carry the same identifier, which
is exactly what the source guarantees. -/

def exIdentIp : Nat × Nat → Identifier := fun a => mkId a.1

def exRoutingC8 : Routing (Nat × Nat) :=
  ⟨⟨(1, 0), mkId 1⟩, ⟨(1, 0), mkId 1⟩, ⟨(2, 100), mkId 2⟩, []⟩

/-- Replies produced by the P2P handler, with the address type generic as in
`P2PHandler` over `Routing<SocketAddr>`. -/

inductive HReply (T : Type) where
  | storageGetSuccess (raw_key value : List Nat)
  | storagePutSuccess (raw_key : List Nat)
  | storageFailure (raw_key : List Nat)
  | predecessorReply (socket_addr : T)
deriving DecidableEq, Repr

/-- `P2PHandler::notify_predecessor` (`src/handler/p2p.rs:45-76`): under one
critical section, remember the old predecessor; if the sender is responsible
(i.e. its identifier is in `(predecessor.id, current.id]`) set the
predecessor; if the predecessor now equals the current address set it; if
the successor equals the current address set the successor; return the old
predecessor. -/

def notify_predecessor {T : Type} [DecidableEq T] (ident : T → Identifier)
    (r : Routing T) (predecessor_addr : T) : Routing T × T :=
  let old_predecessor_addr := r.predecessor.value
  let r1 := if r.responsible_for (ident predecessor_addr)
    then r.set_predecessor ident predecessor_addr else r
  let r2 := if r1.predecessor.value = r1.current.value
    then r1.set_predecessor ident predecessor_addr else r1
  let r3 := if r2.successor.value = r2.current.value
    then r2.set_successor ident predecessor_addr else r2
  (r3, old_predecessor_addr)

/-- `P2PHandler::handle_predecessor_notify` (`src/handler/p2p.rs:200-221`):
runs `notify_predecessor` and replies `PredecessorReply` with the returned
(old) predecessor address. -/

def handle_predecessor_notify {T : Type} [DecidableEq T]
    (ident : T → Identifier) (r : Routing T) (predecessor_addr : T) :
    Routing T × HReply T :=
  let res := notify_predecessor ident r predecessor_addr
  (res.1, HReply.predecessorReply res.2)

/-- Modelled from the spec: the `Key` struct (32 raw key bytes plus a
one-byte replication index, spec §3).  The struct declaration itself is not
among the given source files (the present `storage.rs` is an older
file-based iteration); the fields follow the construction sites in
`src/handler/p2p.rs` and the `Identify for Key` impl in
`src/routing/identifier.rs`. -/

structure Key where
  raw_key : List Nat
  replication_index : Nat
deriving DecidableEq, Repr

/-- The value table of the P2P handler
(`type Storage = HashMap<Key, Vec<u8>>` in `src/handler/p2p.rs`),
as an association list with first-match lookup. -/

abbrev StorageMap := List (Key × List Nat)

def storageLookup (s : StorageMap) (k : Key) : Option (List Nat) :=
  (s.find? (fun p => decide (p.1 = k))).map (·.2)

def storageContains (s : StorageMap) (k : Key) : Bool :=
  (s.find? (fun p => decide (p.1 = k))).isSome

/-- `P2PHandler::put_to_storage` (`src/handler/p2p.rs:84-94`): if the key is
present return `false` and leave the table unchanged, else insert and return
`true`. -/

def put_to_storage (s : StorageMap) (key : Key) (value : List Nat) :
    Bool × StorageMap :=
  if storageContains s key then (false, s) else (true, (key, value) :: s)

/-- `P2PHandler::handle_storage_put` (`src/handler/p2p.rs:139-178`).  The
`ttl` field of the request is never read by the handler, exactly as in the
source. -/

def handle_storage_put {T : Type} (identK : Key → Identifier) (r : Routing T)
    (s : StorageMap) (_ttl replication_index : Nat) (raw_key value : List Nat) :
    StorageMap × Option (HReply T) :=
  let key : Key := ⟨raw_key, replication_index⟩
  if r.responsible_for (identK key) then
    let res := put_to_storage s key value
    (res.2, some (if res.1 then HReply.storagePutSuccess raw_key
      else HReply.storageFailure raw_key))
  else (s, none)

/-- One `StoragePut` request issued by the api handler toward a target
peer, with the fields of `StoragePut` in `src/message/p2p.rs`. -/

structure IssuedPut (T : Type) where
  target : T
  ttl : Nat
  replication_index : Nat
  raw_key : List Nat
  value : List Nat
deriving DecidableEq, Repr

/-- `ApiHandler::handle_dht_put` (`src/handler/api.rs:73-88`): the loop
`for i in 1..target_replication` computes, for each index, the key
identifier, the closest known peer, the `find_peer` target, and issues one
`StoragePut(ttl, i, key, value)` via `Procedures::put_value`
(`src/procedures.rs:91-131`).  The network procedures are abstracted as
total functions (the claim is about the success path). -/

def handle_dht_put {T : Type} (identK : Key → Identifier)
    (closest_peer : Identifier → T) (find_peer : Identifier → T → T)
    (ttl replication : Nat) (key value : List Nat) : List (IssuedPut T) :=
  (List.range' 1 (replication - 1)).map fun i =>
    let k : Key := ⟨key, i⟩
    let identifier := identK k
    let cp := closest_peer identifier
    let target := find_peer identifier cp
    ⟨target, ttl, i, key, value⟩

/-- Finger-refresh loop body of `Stabilization::update_fingers`
(`src/stabilization.rs:135-142`), with the snapshotted `current` and
`successor` and a fallible `find_peer` oracle; the `?` operator aborts the
loop on the first failing lookup, keeping the fingers set so far. -/

def update_fingers_go {T : Type} (ident : T → Identifier)
    (find_peer : Identifier → T → Except Unit T)
    (current successor : IdentifierValue T) :
    Nat → Nat → Routing T → Except Unit Unit × Routing T
  | 0, _, r => (Except.ok (), r)
  | remaining + 1, i, r =>
    match find_peer (idAdd current.identifier (withBit (255 - i)))
        successor.value with
    | Except.error e => (Except.error e, r)
    | Except.ok peer =>
      update_fingers_go ident find_peer current successor remaining (i + 1)
        (r.set_finger ident i peer)

/-- `Stabilization::update_fingers` (`src/stabilization.rs:126-145`):
snapshot `(current, successor, fingers)` and run the loop for
`i ∈ [0, fingers)`. -/

def update_fingers {T : Type} (ident : T → Identifier)
    (find_peer : Identifier → T → Except Unit T) (r : Routing T) :
    Except Unit Unit × Routing T :=
  update_fingers_go ident find_peer r.current r.successor r.fingers 0 r

/-- `Stabilization::update_successor` (`src/stabilization.rs:96-124`) with
the `PredecessorNotify` round-trip modelled as a fallible oracle `notify`;
a failing round-trip leaves the routing table untouched. -/

def update_successor {T : Type} (ident : T → Identifier)
    (notify : T → T → Except Unit T) (r : Routing T) :
    Except Unit Unit × Routing T :=
  match notify r.current.value r.successor.value with
  | Except.error e => (Except.error e, r)
  | Except.ok new_successor =>
    (Except.ok (), update_successor_candidate ident r new_successor)

/-- `Stabilization::stabilize` (`src/stabilization.rs:83-94`): runs
`update_successor`, then `update_fingers`, and combines the two results with
`Result::and`. -/

def stabilize {T : Type} (ident : T → Identifier)
    (notify : T → T → Except Unit T)
    (find_peer : Identifier → T → Except Unit T) (r : Routing T) :
    Except Unit Unit × Routing T :=
  let us := update_successor ident notify r
  let uf := update_fingers ident find_peer us.2
  (match us.1 with
   | Except.error e => Except.error e
   | Except.ok _ => uf.1,
   uf.2)

instance {ε α : Type} [DecidableEq ε] [DecidableEq α] :
    DecidableEq (Except ε α) := fun x y =>
  match x, y with
  | Except.error a, Except.error b =>
    decidable_of_iff (a = b) (by rw [Except.error.injEq])
  | Except.error _, Except.ok _ =>
    Decidable.isFalse (fun h => Except.noConfusion h)
  | Except.ok _, Except.error _ =>
    Decidable.isFalse (fun h => Except.noConfusion h)
  | Except.ok a, Except.ok b =>
    decidable_of_iff (a = b) (by rw [Except.ok.injEq])

/-- Identify function for the C9 instance: addresses are bare naturals. -/
def exIdentN : Nat → Identifier := fun n => mkId n

/-- A two-finger routing table for the C9 instance. -/
def exR9 : Routing Nat :=
  ⟨⟨0, mkId 0⟩, ⟨0, mkId 0⟩, ⟨1, mkId 1⟩, [⟨0, mkId 0⟩, ⟨0, mkId 0⟩]⟩

/-- `find_peer` oracle for the C9 instance: the lookup for finger 0
(identifier `2^255`) fails, every other lookup succeeds with peer 9. -/

def exFind : Identifier → Nat → Except Unit Nat :=
  fun id _ => if id = mkId (2 ^ 255) then Except.error () else Except.ok 9

/-- `notify` oracle for the C9 instance: the successor round-trip succeeds
and returns the successor itself. -/

def exNotify : Nat → Nat → Except Unit Nat := fun _ _ => Except.ok 1

/-- Error kinds of `std::io::ErrorKind` relevant to the codec. -/
inductive ErrKind where
  | unexpectedEof
  | invalidInput
deriving DecidableEq, Repr

/-- Errors raised by `Message::parse` and the payload parsers: `eof` is
`UnexpectedEof` (a read primitive hit the end of the input or of the `take`
window), `invalidSize` the `InvalidInput` error "Size must include header",
`invalidType` the `InvalidInput` error "Invalid message type". -/

inductive ParseErr where
  | eof
  | invalidSize
  | invalidType
deriving DecidableEq, Repr

/-- The `io::ErrorKind` of each parse error. -/
def ParseErr.kind : ParseErr → ErrKind
  | .eof => .unexpectedEof
  | .invalidSize => .invalidInput
  | .invalidType => .invalidInput

/-- An ip address as carried in messages (`std::net::IpAddr`): a V4 address
is four octets, a V6 address its sixteen octets. -/

inductive IpAddr where
  | v4 (a b c d : Nat)
  | v6 (octets : List Nat)
deriving DecidableEq, Repr

/-- `std::net::SocketAddr` as ip plus port.  The source builds parsed
addresses with `SocketAddr::new(ip, port)`, so the V6 flowinfo/scope-id are
always zero and are omitted here. -/

structure SockAddr where
  ip : IpAddr
  port : Nat
deriving DecidableEq, Repr

/-- The `Message` enum (`src/message/mod.rs` with the payload structs of
`src/message/api.rs` and `src/message/p2p.rs`).  `u8`/`u16` fields are
`Nat`s; the `PeerFind`/`PeerFound` identifiers are kept as their raw 32
wire bytes (`Identifier::new` and `Identifier::as_bytes` are mutually
inverse on 32-byte strings, so byte-list equality coincides with `U256`
equality). -/

inductive Message where
  | dhtPut (ttl replication : Nat) (key value : List Nat)
  | dhtGet (key : List Nat)
  | dhtSuccess (key value : List Nat)
  | dhtFailure (key : List Nat)
  | storageGet (replication_index : Nat) (raw_key : List Nat)
  | storagePut (ttl replication_index : Nat) (raw_key value : List Nat)
  | storageGetSuccess (raw_key value : List Nat)
  | storagePutSuccess (raw_key : List Nat)
  | storageFailure (raw_key : List Nat)
  | peerFind (identifier : List Nat)
  | peerFound (identifier : List Nat) (socket_addr : SockAddr)
  | predecessorNotify (socket_addr : SockAddr)
  | predecessorReply (socket_addr : SockAddr)
deriving DecidableEq, Repr

/-- The wire type code of each message (the constants in
`src/message/mod.rs:83-97`). -/

def Message.code : Message → Nat
  | .dhtPut _ _ _ _ => 650
  | .dhtGet _ => 651
  | .dhtSuccess _ _ => 652
  | .dhtFailure _ => 653
  | .storageGet _ _ => 1000
  | .storagePut _ _ _ _ => 1001
  | .storageGetSuccess _ _ => 1002
  | .storagePutSuccess _ => 1003
  | .storageFailure _ => 1004
  | .peerFind _ => 1050
  | .peerFound _ _ => 1051
  | .predecessorNotify _ => 1052
  | .predecessorReply _ => 1053

/-- `read_u8`: one byte or `UnexpectedEof`. -/
def readU8 : List Nat → Except ParseErr (Nat × List Nat)
  | [] => Except.error ParseErr.eof
  | b :: rest => Except.ok (b, rest)

/-- `read_u16::<NetworkEndian>`: two big-endian bytes or `UnexpectedEof`. -/
def readU16 : List Nat → Except ParseErr (Nat × List Nat)
  | b0 :: b1 :: rest => Except.ok (256 * b0 + b1, rest)
  | _ => Except.error ParseErr.eof

/-- `read_exact` into an `n`-byte buffer: `UnexpectedEof` when fewer than
`n` bytes remain in the window. -/

def readExact (n : Nat) (l : List Nat) :
    Except ParseErr (List Nat × List Nat) :=
  if n ≤ l.length then Except.ok (l.take n, l.drop n)
  else Except.error ParseErr.eof

/-- `Ipv6Addr::to_ipv4` applied after reading 16 octets: an address whose
segments are `[0, 0, 0, 0, 0, f, g, h]` with `f = 0` (IPv4-compatible) or
`f = 0xffff` (IPv4-mapped) is represented as the V4 address `g.h`, any other
as V6 — in octets, the first ten octets are zero and octets 10 and 11 are
both 0 or both 255. -/

def ipFromWire (o : List Nat) : IpAddr :=
  if o.take 10 = [0, 0, 0, 0, 0, 0, 0, 0, 0, 0] ∧
      ((o.get? 10 = some 0 ∧ o.get? 11 = some 0) ∨
       (o.get? 10 = some 255 ∧ o.get? 11 = some 255)) then
    IpAddr.v4 ((o.get? 12).getD 0) ((o.get? 13).getD 0)
      ((o.get? 14).getD 0) ((o.get? 15).getD 0)
  else IpAddr.v6 o

/-- Reads a 16-octet ip address and a 2-byte port, as in the `parse` impls
for `PeerFound`, `PredecessorNotify` and `PredecessorReply`. -/

def parseSockAddr (l : List Nat) : Except ParseErr (SockAddr × List Nat) :=
  match readExact 16 l with
  | Except.error e => Except.error e
  | Except.ok (ip_arr, l) =>
    match readU16 l with
    | Except.error e => Except.error e
    | Except.ok (port, l) => Except.ok (⟨ipFromWire ip_arr, port⟩, l)

/-- `MessagePayload::parse` for `DhtPut` (ttl, replication, one reserved
byte, 32-byte key, rest-of-window value). -/

def parseDhtPut (l : List Nat) : Except ParseErr Message :=
  match readU16 l with
  | Except.error e => Except.error e
  | Except.ok (ttl, l) =>
    match readU8 l with
    | Except.error e => Except.error e
    | Except.ok (replication, l) =>
      match readU8 l with
      | Except.error e => Except.error e
      | Except.ok (_, l) =>
        match readExact 32 l with
        | Except.error e => Except.error e
        | Except.ok (key, l) => Except.ok (Message.dhtPut ttl replication key l)

/-- `MessagePayload::parse` for `DhtGet` (32-byte key). -/
def parseDhtGet (l : List Nat) : Except ParseErr Message :=
  match readExact 32 l with
  | Except.error e => Except.error e
  | Except.ok (key, _) => Except.ok (Message.dhtGet key)

/-- `MessagePayload::parse` for `DhtSuccess` (32-byte key, rest value). -/
def parseDhtSuccess (l : List Nat) : Except ParseErr Message :=
  match readExact 32 l with
  | Except.error e => Except.error e
  | Except.ok (key, l) => Except.ok (Message.dhtSuccess key l)

/-- `MessagePayload::parse` for `DhtFailure` (32-byte key). -/
def parseDhtFailure (l : List Nat) : Except ParseErr Message :=
  match readExact 32 l with
  | Except.error e => Except.error e
  | Except.ok (key, _) => Except.ok (Message.dhtFailure key)

/-- `MessagePayload::parse` for `StorageGet` (replication index, three
reserved bytes, 32-byte key). -/

def parseStorageGet (l : List Nat) : Except ParseErr Message :=
  match readU8 l with
  | Except.error e => Except.error e
  | Except.ok (replication_index, l) =>
    match readU8 l with
    | Except.error e => Except.error e
    | Except.ok (_, l) =>
      match readU8 l with
      | Except.error e => Except.error e
      | Except.ok (_, l) =>
        match readU8 l with
        | Except.error e => Except.error e
        | Except.ok (_, l) =>
          match readExact 32 l with
          | Except.error e => Except.error e
          | Except.ok (raw_key, _) =>
            Except.ok (Message.storageGet replication_index raw_key)

/-- `MessagePayload::parse` for `StoragePut` (ttl, replication index, one
reserved byte, 32-byte key, rest value). -/

def parseStoragePut (l : List Nat) : Except ParseErr Message :=
  match readU16 l with
  | Except.error e => Except.error e
  | Except.ok (ttl, l) =>
    match readU8 l with
    | Except.error e => Except.error e
    | Except.ok (replication_index, l) =>
      match readU8 l with
      | Except.error e => Except.error e
      | Except.ok (_, l) =>
        match readExact 32 l with
        | Except.error e => Except.error e
        | Except.ok (raw_key, l) =>
          Except.ok (Message.storagePut ttl replication_index raw_key l)

/-- `MessagePayload::parse` for `StorageGetSuccess` (32-byte key, rest
value). -/

def parseStorageGetSuccess (l : List Nat) : Except ParseErr Message :=
  match readExact 32 l with
  | Except.error e => Except.error e
  | Except.ok (raw_key, l) => Except.ok (Message.storageGetSuccess raw_key l)

/-- `MessagePayload::parse` for `StoragePutSuccess` (32-byte key). -/
def parseStoragePutSuccess (l : List Nat) : Except ParseErr Message :=
  match readExact 32 l with
  | Except.error e => Except.error e
  | Except.ok (raw_key, _) => Except.ok (Message.storagePutSuccess raw_key)

/-- `MessagePayload::parse` for `StorageFailure` (32-byte key). -/
def parseStorageFailure (l : List Nat) : Except ParseErr Message :=
  match readExact 32 l with
  | Except.error e => Except.error e
  | Except.ok (raw_key, _) => Except.ok (Message.storageFailure raw_key)

/-- `MessagePayload::parse` for `PeerFind` (32 raw identifier bytes). -/
def parsePeerFind (l : List Nat) : Except ParseErr Message :=
  match readExact 32 l with
  | Except.error e => Except.error e
  | Except.ok (id_arr, _) => Except.ok (Message.peerFind id_arr)

/-- `MessagePayload::parse` for `PeerFound` (32 identifier bytes, 16-octet
ip, 2-byte port). -/

def parsePeerFound (l : List Nat) : Except ParseErr Message :=
  match readExact 32 l with
  | Except.error e => Except.error e
  | Except.ok (id_arr, l) =>
    match parseSockAddr l with
    | Except.error e => Except.error e
    | Except.ok (socket_addr, _) =>
      Except.ok (Message.peerFound id_arr socket_addr)

/-- `MessagePayload::parse` for `PredecessorNotify` (16-octet ip, 2-byte
port). -/

def parsePredecessorNotify (l : List Nat) : Except ParseErr Message :=
  match parseSockAddr l with
  | Except.error e => Except.error e
  | Except.ok (socket_addr, _) =>
    Except.ok (Message.predecessorNotify socket_addr)

/-- `MessagePayload::parse` for `PredecessorReply` (16-octet ip, 2-byte
port). -/

def parsePredecessorReply (l : List Nat) : Except ParseErr Message :=
  match parseSockAddr l with
  | Except.error e => Except.error e
  | Except.ok (socket_addr, _) =>
    Except.ok (Message.predecessorReply socket_addr)

/-- The `match msg_type` dispatch of `Message::parse`
(`src/message/mod.rs:112-169`); an unknown type code is the `InvalidInput`
error "Invalid message type". -/

def parseDispatch (msg_type : Nat) (payload : List Nat) :
    Except ParseErr Message :=
  if msg_type = 650 then parseDhtPut payload
  else if msg_type = 651 then parseDhtGet payload
  else if msg_type = 652 then parseDhtSuccess payload
  else if msg_type = 653 then parseDhtFailure payload
  else if msg_type = 1000 then parseStorageGet payload
  else if msg_type = 1001 then parseStoragePut payload
  else if msg_type = 1002 then parseStorageGetSuccess payload
  else if msg_type = 1003 then parseStoragePutSuccess payload
  else if msg_type = 1004 then parseStorageFailure payload
  else if msg_type = 1050 then parsePeerFind payload
  else if msg_type = 1051 then parsePeerFound payload
  else if msg_type = 1052 then parsePredecessorNotify payload
  else if msg_type = 1053 then parsePredecessorReply payload
  else Except.error ParseErr.invalidType

/-- `Message::parse` (`src/message/mod.rs:99-170`): read the 2-byte size and
the 2-byte type, reject sizes below 4 with `InvalidInput`, then hand the
payload window `take(size - 4)` to the type dispatch.  No check relates the
declared size to the number of bytes actually available. -/

def Message.parse (input : List Nat) : Except ParseErr Message :=
  match readU16 input with
  | Except.error e => Except.error e
  | Except.ok (size, l) =>
    match readU16 l with
    | Except.error e => Except.error e
    | Except.ok (msg_type, l) =>
      if size < 4 then Except.error ParseErr.invalidSize
      else parseDispatch msg_type (l.take (size - 4))

/-- `write_u16::<NetworkEndian>` of a value truncated to `u16`. -/
def u16be (v : Nat) : List Nat := [v / 256 % 256, v % 256]

/-- `write_u8` of a value truncated to `u8`. -/
def u8be (v : Nat) : List Nat := [v % 256]

/-- `to_ipv6_mapped` plus `octets()` on write: a V4 address becomes the
16 octets `::ffff:a.b.c.d`, a V6 address writes its own octets. -/

def ipToWire : IpAddr → List Nat
  | .v4 a b c d => [0, 0, 0, 0, 0, 0, 0, 0, 0, 0, 255, 255, a, b, c, d]
  | .v6 o => o

/-- The address bytes written by the `write_to` impls for `PeerFound`,
`PredecessorNotify` and `PredecessorReply`: 16 ip octets then the port. -/

def sockAddrBytes (sa : SockAddr) : List Nat := ipToWire sa.ip ++ u16be sa.port

/-- The payload bytes written by each `MessagePayload::write_to` impl. -/
def payloadBytes : Message → List Nat
  | .dhtPut ttl replication key value =>
    u16be ttl ++ (u8be replication ++ ([0] ++ (key ++ value)))
  | .dhtGet key => key
  | .dhtSuccess key value => key ++ value
  | .dhtFailure key => key
  | .storageGet replication_index raw_key =>
    u8be replication_index ++ ([0, 0, 0] ++ raw_key)
  | .storagePut ttl replication_index raw_key value =>
    u16be ttl ++ (u8be replication_index ++ ([0] ++ (raw_key ++ value)))
  | .storageGetSuccess raw_key value => raw_key ++ value
  | .storagePutSuccess raw_key => raw_key
  | .storageFailure raw_key => raw_key
  | .peerFind identifier => identifier
  | .peerFound identifier socket_addr => identifier ++ sockAddrBytes socket_addr
  | .predecessorNotify socket_addr => sockAddrBytes socket_addr
  | .predecessorReply socket_addr => sockAddrBytes socket_addr

/-- One `write`/`write_all` into the fixed buffer of `Connection::send`
(a `Cursor` over `[u8; MAX_MESSAGE_SIZE]`): `write_all` fails with
`WriteZero` when the bytes do not fit.  Bytes partially copied before the
failure are never observable: `send` transmits `buffer[..size]` only on
success. -/

def wappend (cap : Nat) (w bytes : List Nat) : Except Unit (List Nat) :=
  if w.length + bytes.length ≤ cap then Except.ok (w ++ bytes)
  else Except.error ()

/-- `Message::write_to` (`src/message/mod.rs:172-238`) against a
capacity-`cap` buffer: reserve two size bytes (`write_u16(0)`), write the
type code and the payload, read the total size with `seek(Current(0))`,
seek back to the start and overwrite the first two bytes with the size
truncated `as u16`; returns `(size, buffer[..size])`.  Bytes of the zeroed
buffer beyond `size` are never observable. -/

def Message.write_to (m : Message) (cap : Nat) :
    Except Unit (Nat × List Nat) :=
  match wappend cap [] (u16be 0) with
  | Except.error e => Except.error e
  | Except.ok w =>
    match wappend cap w (u16be m.code) with
    | Except.error e => Except.error e
    | Except.ok w =>
      match wappend cap w (payloadBytes m) with
      | Except.error e => Except.error e
      | Except.ok w => Except.ok (w.length, u16be w.length ++ w.drop 2)

/-- `Connection::send` (`src/network.rs:89-95`): encode into the
`[u8; 64000]` buffer and transmit `buffer[..size]`. -/

def connection_send (m : Message) : Except Unit (List Nat) :=
  match Message.write_to m 64000 with
  | Except.error e => Except.error e
  | Except.ok (_, bytes) => Except.ok bytes

/-- The full frame produced by a successful encode: backpatched size, type
code, payload. -/

def frameBytes (m : Message) : List Nat :=
  u16be (4 + (payloadBytes m).length) ++ (u16be m.code ++ payloadBytes m)

/-- The value declared in the 2-byte size field of a frame. -/
def sizeField (bs : List Nat) : Nat :=
  match bs with
  | b0 :: b1 :: _ => 256 * b0 + b1
  | _ => 0

/-- Every entry of the list is a byte. -/
def bytesWf (l : List Nat) : Bool := decide (∀ x ∈ l, x < 256)

/-- Field ranges of an ip address (`Ipv4Addr`/`Ipv6Addr` octets). -/
def ipWf : IpAddr → Bool
  | .v4 a b c d => decide (a < 256 ∧ b < 256 ∧ c < 256 ∧ d < 256)
  | .v6 o => decide (o.length = 16) && bytesWf o

/-- Field ranges of a socket address. -/
def sockAddrWf (sa : SockAddr) : Bool := ipWf sa.ip && decide (sa.port < 65536)

/-- Field ranges of a message: `u16`/`u8` scalars in range, 32-byte keys and
identifiers, byte-valued lists. -/

def Message.payloadWf : Message → Bool
  | .dhtPut ttl repl key value =>
    decide (ttl < 65536) && decide (repl < 256) && decide (key.length = 32) &&
      bytesWf key && bytesWf value
  | .dhtGet key => decide (key.length = 32) && bytesWf key
  | .dhtSuccess key value =>
    decide (key.length = 32) && bytesWf key && bytesWf value
  | .dhtFailure key => decide (key.length = 32) && bytesWf key
  | .storageGet ri key =>
    decide (ri < 256) && decide (key.length = 32) && bytesWf key
  | .storagePut ttl ri key value =>
    decide (ttl < 65536) && decide (ri < 256) && decide (key.length = 32) &&
      bytesWf key && bytesWf value
  | .storageGetSuccess key value =>
    decide (key.length = 32) && bytesWf key && bytesWf value
  | .storagePutSuccess key => decide (key.length = 32) && bytesWf key
  | .storageFailure key => decide (key.length = 32) && bytesWf key
  | .peerFind idb => decide (idb.length = 32) && bytesWf idb
  | .peerFound idb sa =>
    decide (idb.length = 32) && bytesWf idb && sockAddrWf sa
  | .predecessorNotify sa => sockAddrWf sa
  | .predecessorReply sa => sockAddrWf sa

/-- A well-formed message: field ranges plus the frame-size bound
`MAX_MESSAGE_SIZE = 64000` of `src/network.rs`. -/

def Message.wf (m : Message) : Bool :=
  m.payloadWf && decide (4 + (payloadBytes m).length ≤ 64000)

/-- A V6 address outside the IPv4-compatible/IPv4-mapped block (on which
`Ipv6Addr::to_ipv4` returns `None`, so the decoded address stays V6). -/

def ipNotConvertible : IpAddr → Bool
  | .v4 _ _ _ _ => true
  | .v6 o =>
    ! decide (o.take 10 = [0, 0, 0, 0, 0, 0, 0, 0, 0, 0] ∧
      ((o.get? 10 = some 0 ∧ o.get? 11 = some 0) ∨
       (o.get? 10 = some 255 ∧ o.get? 11 = some 255)))

/-- The socket addresses of the message survive the decode direction (V4
always does; a V6 address only when it is not IPv4-compatible/mapped). -/

def Message.addrPreserved : Message → Bool
  | .peerFound _ sa => ipNotConvertible sa.ip
  | .predecessorNotify sa => ipNotConvertible sa.ip
  | .predecessorReply sa => ipNotConvertible sa.ip
  | _ => true

/-- A well-formed `PredecessorNotify` carrying the genuine V6 address `::1`
(16 octets `0, …, 0, 1`), which lies in the IPv4-compatible block. -/

def exMsgV6 : Message :=
  Message.predecessorNotify
    ⟨IpAddr.v6 [0, 0, 0, 0, 0, 0, 0, 0, 0, 0, 0, 0, 0, 0, 0, 1], 8080⟩

/-- What `::1` decodes to after the encode/decode round trip: the V4
address `0.0.0.1`. -/

def exMsgV4 : Message := Message.predecessorNotify ⟨IpAddr.v4 0 0 0 1, 8080⟩

theorem ringSize_pos : 0 < ringSize := Nat.pos_pow_of_pos 256 (by omega)

theorem isBetween_same (x a : Identifier) : isBetween x a a = false := by
  obtain ⟨A, hA⟩ := a
  obtain ⟨X, hX⟩ := x
  simp only [isBetween, idSub, decide_eq_false_iff_not]
  have h : (A + (ringSize - A)) % ringSize = 0 := by
    rw [Nat.add_sub_cancel' (Nat.le_of_lt hA), Nat.mod_self]
  rw [h]
  omega

theorem wrapSub_val (y z : Nat) (hy : y < ringSize) (hz : z < ringSize) :
    (y + (ringSize - z)) % ringSize =
      if z ≤ y then y - z else y + (ringSize - z) := by
  split
  · rename_i h
    have hzN : z ≤ ringSize := Nat.le_of_lt hz
    have : y + (ringSize - z) = ringSize + (y - z) := by omega
    rw [this, Nat.add_mod_left, Nat.mod_eq_of_lt (by omega)]
  · rename_i h
    exact Nat.mod_eq_of_lt (by omega)

/-- C7: for any identifiers `a ≠ b` and any `c`, exactly one of
`c.is_between(a, b)` and `c.is_between(b, a) ∨ c = a` holds, and
`x.is_between(a, a)` is false for all `x`. -/
theorem isBetween_exclusive_exhaustive (a b c : Identifier) :
    (a ≠ b → (isBetween c a b = true ↔ ¬(isBetween c b a = true ∨ c = a))) ∧
    isBetween c a a = false := by
  obtain ⟨A, hA⟩ := a
  obtain ⟨B, hB⟩ := b
  obtain ⟨x, hx⟩ := c
  have hN : 0 < ringSize := ringSize_pos
  constructor
  · intro hab
    have hAB : A ≠ B := by
      intro h
      exact hab (by simp [Fin.ext_iff, h])
    simp only [isBetween, idSub, decide_eq_true_eq, Fin.mk.injEq]
    rw [wrapSub_val B x hB hx, wrapSub_val B A hB hA,
        wrapSub_val A x hA hx, wrapSub_val A B hA hB]
    split_ifs <;> omega
  · exact isBetween_same ⟨x, hx⟩ ⟨A, hA⟩

/-- Witness for `isBetween_exclusive_exhaustive` at concrete identifiers
`a = 1`, `b = 5`, `c = 3`. -/
theorem isBetween_exclusive_exhaustive_witness :
    (isBetween (mkId 3) (mkId 1) (mkId 5) = true ↔
      ¬(isBetween (mkId 3) (mkId 5) (mkId 1) = true ∨ mkId 3 = mkId 1)) ∧
    isBetween (mkId 3) (mkId 1) (mkId 1) = false :=
  ⟨(isBetween_exclusive_exhaustive (mkId 1) (mkId 5) (mkId 3)).1 (by decide),
   (isBetween_exclusive_exhaustive (mkId 1) (mkId 5) (mkId 3)).2⟩

/-- C10: `closest_peer` is total for every finger-table length: it always
returns the current peer, the successor or a finger-table entry, it falls
back to the successor whenever the leading-zeros index is not a valid
finger-table index, and in the edge case `id = current.id` with
`predecessor = current` the offset is zero, `leading_zeros` is 256, and
(whenever 256 is out of range for the table) the successor is returned. -/
theorem closest_peer_total {T : Type} (r : Routing T) (id : Identifier) :
    (r.closest_peer id = r.current ∨ r.closest_peer id = r.successor ∨
      r.closest_peer id ∈ r.finger_table) ∧
    (r.responsible_for id = false → r.successor_responsible_for id = false →
      r.finger_table.length ≤ leadingZeros (idSub id r.current.identifier) →
      r.closest_peer id = r.successor) ∧
    (r.predecessor.identifier = r.current.identifier →
      id = r.current.identifier →
      leadingZeros (idSub id r.current.identifier) = 256 ∧
      (r.finger_table.length ≤ 256 → r.closest_peer id = r.successor)) := by
  have hzero : ∀ h : id = r.current.identifier,
      (idSub id r.current.identifier).val = 0 := by
    intro h
    simp only [idSub, h]
    have hle : r.current.identifier.val ≤ ringSize := Nat.le_of_lt r.current.identifier.isLt
    rw [Nat.add_sub_cancel' hle, Nat.mod_self]
  refine ⟨?_, ?_, ?_⟩
  · unfold Routing.closest_peer
    split
    · exact Or.inl rfl
    · split
      · exact Or.inr (Or.inl rfl)
      · dsimp only
        rcases hget : r.finger_table.get? (leadingZeros (idSub id r.current.identifier)) with _ | f
        · exact Or.inr (Or.inl rfl)
        · exact Or.inr (Or.inr (List.get?_mem hget))
  · intro h1 h2 h3
    unfold Routing.closest_peer
    rw [h1, h2]
    simp only [Bool.false_eq_true, if_false]
    rw [List.get?_eq_none.mpr h3]
    rfl
  · intro hpred hid
    have hv : (idSub id r.current.identifier).val = 0 := hzero hid
    have hlz : leadingZeros (idSub id r.current.identifier) = 256 := by
      unfold leadingZeros
      rw [if_pos hv]
    refine ⟨hlz, fun hlen => ?_⟩
    have hresp : r.responsible_for id = false := by
      unfold Routing.responsible_for
      rw [hpred, hid]
      exact isBetween_same _ _
    have hsucc : r.successor_responsible_for id = false := by
      unfold Routing.successor_responsible_for isBetween
      simp only [decide_eq_false_iff_not]
      rw [hid]
      omega
    unfold Routing.closest_peer
    rw [hresp, hsucc]
    simp only [Bool.false_eq_true, if_false]
    rw [List.get?_eq_none.mpr (by omega)]
    rfl

/-- Witness for `closest_peer_total`: a routing table over `T = Nat` with an
empty finger table, `predecessor = current`, queried at the node's own
identifier. -/
theorem closest_peer_total_witness :
    (Routing.mk (T := Nat) ⟨7, mkId 1⟩ ⟨7, mkId 1⟩ ⟨9, mkId 2⟩ []).closest_peer (mkId 1) =
      ⟨9, mkId 2⟩ ∧
    leadingZeros (idSub (mkId 1) (mkId 1)) = 256 := by
  have h := (closest_peer_total
    (Routing.mk (T := Nat) ⟨7, mkId 1⟩ ⟨7, mkId 1⟩ ⟨9, mkId 2⟩ []) (mkId 1)).2.2
    rfl rfl
  exact ⟨h.2 (by decide), h.1⟩

theorem update_successor_candidate_fields {T : Type} (ident : T → Identifier)
    (r : Routing T) (c : T) :
    (update_successor_candidate ident r c).current = r.current ∧
    (update_successor_candidate ident r c).predecessor = r.predecessor ∧
    (update_successor_candidate ident r c).finger_table = r.finger_table ∧
    (update_successor_candidate ident r c).successor =
      (if isBetween (ident c) r.current.identifier r.successor.identifier
        then IdentifierValue.new ident c else r.successor) := by
  unfold update_successor_candidate Routing.set_successor
  split <;> simp_all

/-- C8 counterexample: the candidate `(2, 200)` (same ip as the successor
`(2, 100)`, different port) has an identifier equal to the successor's, so
the claim says the successor field is left unchanged; the code's
`is_between` is right-endpoint inclusive and replaces the successor. -/
theorem update_successor_candidate_counterexample :
    exIdentIp (2, 200) = exRoutingC8.successor.identifier ∧
    exRoutingC8.current.identifier ≠ exRoutingC8.successor.identifier ∧
    (update_successor_candidate exIdentIp exRoutingC8 (2, 200)).successor.value ≠
      exRoutingC8.successor.value := by
  refine ⟨by decide, by decide, ?_⟩
  decide

/-- C8 (amended): the stabilization successor-update step replaces the
successor by `candidate` iff
`(successor.id − candidate.id) mod 2^256 < (successor.id − current.id) mod 2^256`,
i.e. iff `candidate.id ∈ (current.id, successor.id]` with the right endpoint
included (in particular `candidate.id = successor.id` with
`current.id ≠ successor.id` also triggers the replacement); all other routing
fields are unchanged. -/
theorem update_successor_candidate_iff {T : Type} (ident : T → Identifier)
    (r : Routing T) (cand : T) :
    (update_successor_candidate ident r cand).successor =
      (if (idSub r.successor.identifier (ident cand)).val <
          (idSub r.successor.identifier r.current.identifier).val
        then IdentifierValue.new ident cand else r.successor) ∧
    (update_successor_candidate ident r cand).current = r.current ∧
    (update_successor_candidate ident r cand).predecessor = r.predecessor ∧
    (update_successor_candidate ident r cand).finger_table = r.finger_table := by
  have h := update_successor_candidate_fields ident r cand
  refine ⟨?_, h.1, h.2.1, h.2.2.1⟩
  rw [h.2.2.2]
  unfold isBetween
  by_cases hlt : (idSub r.successor.identifier (ident cand)).val <
      (idSub r.successor.identifier r.current.identifier).val <;>
    simp [hlt]

/-- Witness for `update_successor_candidate_iff`: the candidate `(2, 50)`
with identifier 2 lies in `(1, 2]`, so the successor is replaced. -/
theorem update_successor_candidate_iff_witness :
    (update_successor_candidate exIdentIp exRoutingC8 (2, 50)).successor =
      IdentifierValue.new exIdentIp (2, 50) := by
  have h := update_successor_candidate_iff exIdentIp exRoutingC8 (2, 50)
  rw [h.1, if_pos (by decide)]

/-- C2: `handle_predecessor_notify` always replies with the predecessor
recorded before any update; the final predecessor is `p_addr` exactly when
`p_addr.id ∈ (predecessor.id, current.id]` or when, after that first check,
the predecessor equals the current address; the successor becomes `p_addr`
exactly when it equals the current address; nothing else changes. -/
theorem handle_predecessor_notify_spec {T : Type} [DecidableEq T]
    (ident : T → Identifier) (r : Routing T) (p : T) :
    (handle_predecessor_notify ident r p).2 =
      HReply.predecessorReply r.predecessor.value ∧
    (handle_predecessor_notify ident r p).1.predecessor =
      (if r.responsible_for (ident p) = true ∨
          (if r.responsible_for (ident p) then p else r.predecessor.value) =
            r.current.value
        then IdentifierValue.new ident p else r.predecessor) ∧
    (handle_predecessor_notify ident r p).1.successor =
      (if r.successor.value = r.current.value
        then IdentifierValue.new ident p else r.successor) ∧
    (handle_predecessor_notify ident r p).1.current = r.current ∧
    (handle_predecessor_notify ident r p).1.finger_table = r.finger_table := by
  unfold handle_predecessor_notify notify_predecessor
    Routing.set_predecessor Routing.set_successor IdentifierValue.new
  dsimp only
  split_ifs <;> simp_all

/-- Witness for `handle_predecessor_notify_spec`: a fresh single-node ring
(`predecessor = successor = current`) notified by peer 5 adopts it as both
predecessor and successor and replies with the old predecessor. -/
theorem handle_predecessor_notify_spec_witness :
    (handle_predecessor_notify (fun n => mkId n)
      (Routing.mk (T := Nat) ⟨0, mkId 0⟩ ⟨0, mkId 0⟩ ⟨0, mkId 0⟩ []) 5).2 =
      HReply.predecessorReply 0 ∧
    (handle_predecessor_notify (fun n => mkId n)
      (Routing.mk (T := Nat) ⟨0, mkId 0⟩ ⟨0, mkId 0⟩ ⟨0, mkId 0⟩ []) 5).1.predecessor =
      IdentifierValue.new (fun n => mkId n) 5 ∧
    (handle_predecessor_notify (fun n => mkId n)
      (Routing.mk (T := Nat) ⟨0, mkId 0⟩ ⟨0, mkId 0⟩ ⟨0, mkId 0⟩ []) 5).1.successor =
      IdentifierValue.new (fun n => mkId n) 5 := by
  have h := handle_predecessor_notify_spec (fun n => mkId n)
    (Routing.mk (T := Nat) ⟨0, mkId 0⟩ ⟨0, mkId 0⟩ ⟨0, mkId 0⟩ []) 5
  refine ⟨h.1, ?_, ?_⟩
  · rw [h.2.1, if_pos (by decide)]
  · rw [h.2.2.1, if_pos (by decide)]

/-- C3: `handle_storage_put` drops the request silently (no reply, table
unchanged) when the node is not responsible for the key's identifier;
when responsible it inserts and replies `StoragePutSuccess(k)` if the key is
absent, and replies `StorageFailure(k)` leaving the stored value unchanged
if the key is present (write-once per key). -/
theorem handle_storage_put_spec {T : Type} (identK : Key → Identifier)
    (r : Routing T) (s : StorageMap) (ttl repl : Nat) (k v : List Nat) :
    (r.responsible_for (identK ⟨k, repl⟩) = false →
      handle_storage_put identK r s ttl repl k v = (s, none)) ∧
    (r.responsible_for (identK ⟨k, repl⟩) = true →
      storageLookup s ⟨k, repl⟩ = none →
      handle_storage_put identK r s ttl repl k v =
        ((⟨k, repl⟩, v) :: s, some (HReply.storagePutSuccess k))) ∧
    (∀ v₀, r.responsible_for (identK ⟨k, repl⟩) = true →
      storageLookup s ⟨k, repl⟩ = some v₀ →
      handle_storage_put identK r s ttl repl k v =
        (s, some (HReply.storageFailure k)) ∧
      storageLookup (handle_storage_put identK r s ttl repl k v).1 ⟨k, repl⟩ =
        some v₀) := by
  refine ⟨fun h => ?_, fun h habs => ?_, fun v₀ h hpres => ?_⟩
  · simp [handle_storage_put, h]
  · have hc : storageContains s ⟨k, repl⟩ = false := by
      unfold storageContains
      unfold storageLookup at habs
      rcases hf : s.find? (fun p => decide (p.1 = ⟨k, repl⟩)) with _ | p
      · rw [hf]
        rfl
      · rw [hf] at habs
        simp at habs
    simp [handle_storage_put, put_to_storage, h, hc]
  · have hc : storageContains s ⟨k, repl⟩ = true := by
      unfold storageContains
      unfold storageLookup at hpres
      rcases hf : s.find? (fun p => decide (p.1 = ⟨k, repl⟩)) with _ | p
      · rw [hf] at hpres
        simp at hpres
      · rw [hf]
        rfl
    have hres : handle_storage_put identK r s ttl repl k v =
        (s, some (HReply.storageFailure k)) := by
      simp [handle_storage_put, put_to_storage, h, hc]
    exact ⟨hres, by rw [hres]; exact hpres⟩

/-- Witness for `handle_storage_put_spec`: a single-node table responsible
for everything, storing one concrete pair, then rejecting a duplicate. -/
theorem handle_storage_put_spec_witness :
    handle_storage_put (T := Nat) (fun _ => mkId 1)
        ⟨⟨7, mkId 1⟩, ⟨7, mkId 0⟩, ⟨7, mkId 1⟩, []⟩ [] 10 0 [17] [1, 2, 3] =
      ([(⟨[17], 0⟩, [1, 2, 3])], some (HReply.storagePutSuccess [17])) ∧
    handle_storage_put (T := Nat) (fun _ => mkId 1)
        ⟨⟨7, mkId 1⟩, ⟨7, mkId 0⟩, ⟨7, mkId 1⟩, []⟩ [(⟨[17], 0⟩, [1, 2, 3])]
        10 0 [17] [9] =
      ([(⟨[17], 0⟩, [1, 2, 3])], some (HReply.storageFailure [17])) :=
  ⟨(handle_storage_put_spec (T := Nat) (fun _ => mkId 1)
      ⟨⟨7, mkId 1⟩, ⟨7, mkId 0⟩, ⟨7, mkId 1⟩, []⟩ [] 10 0 [17] [1, 2, 3]).2.1
      (by decide) (by decide),
   ((handle_storage_put_spec (T := Nat) (fun _ => mkId 1)
      ⟨⟨7, mkId 1⟩, ⟨7, mkId 0⟩, ⟨7, mkId 1⟩, []⟩ [(⟨[17], 0⟩, [1, 2, 3])]
      10 0 [17] [9]).2.2 [1, 2, 3] (by decide) (by decide)).1⟩

/-- C1 (code bug): `handle_dht_put` issues `StoragePut` requests exactly for
replication indices `1, …, replication − 1` — `replication − 1` of them, not
the claimed `replication + 1`: index 0 is never stored, and a request with
`replication = 0` issues no store at all. -/
theorem handle_dht_put_indices {T : Type} (identK : Key → Identifier)
    (closest_peer : Identifier → T) (find_peer : Identifier → T → T)
    (ttl replication : Nat) (key value : List Nat) :
    (handle_dht_put identK closest_peer find_peer ttl replication key value).map
        (fun p => p.replication_index) = List.range' 1 (replication - 1) ∧
    handle_dht_put identK closest_peer find_peer ttl 0 key value = [] := by
  have h1 : (handle_dht_put identK closest_peer find_peer ttl replication key
      value).map (fun p => p.replication_index) = List.range' 1 (replication - 1) := by
    unfold handle_dht_put
    rw [List.map_map]
    exact List.map_id _
  exact ⟨h1, rfl⟩

/-- Witness for `handle_dht_put_indices`: with `replication = 0` no request
is issued; with `replication = 5` the issued indices are `[1, 2, 3, 4]`. -/
theorem handle_dht_put_indices_witness :
    handle_dht_put (T := Nat) (fun _ => mkId 1) (fun _ => 2) (fun _ _ => 3)
      10 0 (List.replicate 32 17) [1, 2, 3] = [] ∧
    (handle_dht_put (T := Nat) (fun _ => mkId 1) (fun _ => 2) (fun _ _ => 3)
      10 5 (List.replicate 32 17) [1, 2, 3]).map
        (fun p => p.replication_index) = List.range' 1 4 :=
  ⟨(handle_dht_put_indices (fun _ => mkId 1) (fun _ => 2) (fun _ _ => 3)
      10 0 (List.replicate 32 17) [1, 2, 3]).2,
   (handle_dht_put_indices (fun _ => mkId 1) (fun _ => 2) (fun _ _ => 3)
      10 5 (List.replicate 32 17) [1, 2, 3]).1⟩

theorem list_get?_set_ne {α : Type} (l : List α) (i j : Nat) (a : α)
    (h : i ≠ j) : (l.set i a).get? j = l.get? j := by
  induction l generalizing i j with
  | nil => simp
  | cons x xs ih =>
    cases i with
    | zero =>
      cases j with
      | zero => omega
      | succ j' => rfl
    | succ i' =>
      cases j with
      | zero => rfl
      | succ j' => exact ih i' j' (by omega)

theorem list_get?_set_self {α : Type} (l : List α) (i : Nat) (a : α)
    (h : i < l.length) : (l.set i a).get? i = some a := by
  induction l generalizing i with
  | nil => simp at h
  | cons x xs ih =>
    cases i with
    | zero => rfl
    | succ i' => exact ih i' (by simpa using h)

theorem update_fingers_go_spec {T : Type} (ident : T → Identifier)
    (find_peer : Identifier → T → Except Unit T)
    (cur succ : IdentifierValue T) (j : Nat) (p : Nat → T)
    (hfail : find_peer (idAdd cur.identifier (withBit (255 - j))) succ.value =
      Except.error ())
    (hok : ∀ i, i < 256 → i ≠ j →
      find_peer (idAdd cur.identifier (withBit (255 - i))) succ.value =
        Except.ok (p i)) :
    ∀ rem i r, i ≤ j → i + rem ≤ 256 → i + rem ≤ r.finger_table.length →
      (update_fingers_go ident find_peer cur succ rem i r).1 =
        (if j < i + rem then Except.error () else Except.ok ()) ∧
      (update_fingers_go ident find_peer cur succ rem i r).2.current = r.current ∧
      (update_fingers_go ident find_peer cur succ rem i r).2.predecessor = r.predecessor ∧
      (update_fingers_go ident find_peer cur succ rem i r).2.successor = r.successor ∧
      (∀ t, (update_fingers_go ident find_peer cur succ rem i r).2.finger_table.get? t =
        (if i ≤ t ∧ t < min j (i + rem)
          then some (IdentifierValue.new ident (p t))
          else r.finger_table.get? t)) := by
  intro rem
  induction rem with
  | zero =>
    intro i r hij _ _
    unfold update_fingers_go
    exact ⟨by rw [if_neg (by omega)], rfl, rfl, rfl,
      fun t => by rw [if_neg (by omega)]⟩
  | succ rem' ih =>
    intro i r hij hb hlen
    by_cases hcase : i = j
    · subst hcase
      unfold update_fingers_go
      rw [hfail]
      exact ⟨by rw [if_pos (by omega)], rfl, rfl, rfl,
        fun t => by rw [if_neg (by omega)]⟩
    · have hilt : i < j := by omega
      unfold update_fingers_go
      rw [hok i (by omega) hcase]
      have hlen' : (i + 1) + rem' ≤
          (r.set_finger ident i (p i)).finger_table.length := by
        simp only [Routing.set_finger, List.length_set]
        omega
      obtain ⟨h1, h2, h3, h4, h5⟩ := ih (i + 1) (r.set_finger ident i (p i))
        (by omega) (by omega) hlen'
      rw [show (i + 1) + rem' = i + (rem' + 1) from by omega] at h1 h5
      refine ⟨by rw [h1], by rw [h2]; rfl, by rw [h3]; rfl,
        by rw [h4]; rfl, fun t => ?_⟩
      rw [h5 t]
      by_cases ht : i + 1 ≤ t ∧ t < min j (i + (rem' + 1))
      · rw [if_pos ht, if_pos (by omega)]
      · rw [if_neg ht]
        by_cases hti : t = i
        · subst hti
          rw [if_pos (by omega)]
          unfold Routing.set_finger
          exact list_get?_set_self _ _ _ (by omega)
        · rw [if_neg (by omega)]
          unfold Routing.set_finger
          exact list_get?_set_ne _ _ _ _ (fun h => hti h.symm)

/-- C9 (amended): within one stabilization tick the successor-update step and
the finger-refresh step both always execute (their results are only combined
at the end with `Result::and`), but inside the finger-refresh loop the first
failing lookup aborts the refresh of all later finger indices: when the
lookup for finger `j` fails and every other lookup succeeds, fingers
`0, …, j−1` are refreshed, fingers `j, …, F−1` keep their previous values,
the successor update is still applied, and the tick reports the error. -/
theorem stabilize_partial_failure {T : Type} (ident : T → Identifier)
    (notify : T → T → Except Unit T)
    (find_peer : Identifier → T → Except Unit T) (r : Routing T)
    (j : Nat) (cand : T) (p : Nat → T)
    (hj : j < r.fingers) (hF : r.fingers ≤ 256)
    (hnotify : notify r.current.value r.successor.value = Except.ok cand)
    (hfail : find_peer (idAdd r.current.identifier (withBit (255 - j)))
      (update_successor_candidate ident r cand).successor.value =
      Except.error ())
    (hok : ∀ i, i < 256 → i ≠ j →
      find_peer (idAdd r.current.identifier (withBit (255 - i)))
        (update_successor_candidate ident r cand).successor.value =
        Except.ok (p i)) :
    (stabilize ident notify find_peer r).1 = Except.error () ∧
    (stabilize ident notify find_peer r).2.successor =
      (update_successor_candidate ident r cand).successor ∧
    (stabilize ident notify find_peer r).2.current = r.current ∧
    (stabilize ident notify find_peer r).2.predecessor = r.predecessor ∧
    (∀ t, t < j → (stabilize ident notify find_peer r).2.finger_table.get? t =
      some (IdentifierValue.new ident (p t))) ∧
    (∀ t, j ≤ t → (stabilize ident notify find_peer r).2.finger_table.get? t =
      r.finger_table.get? t) := by
  have hfields := update_successor_candidate_fields ident r cand
  have hcur : (update_successor_candidate ident r cand).current = r.current :=
    hfields.1
  have hpred := hfields.2.1
  have hft := hfields.2.2.1
  have hfail' : find_peer
      (idAdd (update_successor_candidate ident r cand).current.identifier
        (withBit (255 - j)))
      (update_successor_candidate ident r cand).successor.value =
      Except.error () := by rw [hcur]; exact hfail
  have hok' : ∀ i, i < 256 → i ≠ j → find_peer
      (idAdd (update_successor_candidate ident r cand).current.identifier
        (withBit (255 - i)))
      (update_successor_candidate ident r cand).successor.value =
      Except.ok (p i) := by
    intro i h1 h2
    rw [hcur]
    exact hok i h1 h2
  have hflen : (update_successor_candidate ident r cand).fingers = r.fingers := by
    unfold Routing.fingers
    rw [hft]
  obtain ⟨h1, h2, h3, h4, h5⟩ := update_fingers_go_spec ident find_peer
    (update_successor_candidate ident r cand).current
    (update_successor_candidate ident r cand).successor j p hfail' hok'
    (update_successor_candidate ident r cand).fingers 0
    (update_successor_candidate ident r cand)
    (by omega) (by omega) (by unfold Routing.fingers; omega)
  have hus : update_successor ident notify r =
      (Except.ok (), update_successor_candidate ident r cand) := by
    unfold update_successor
    rw [hnotify]
  have hstab : stabilize ident notify find_peer r =
      update_fingers_go ident find_peer
        (update_successor_candidate ident r cand).current
        (update_successor_candidate ident r cand).successor
        (update_successor_candidate ident r cand).fingers 0
        (update_successor_candidate ident r cand) := by
    unfold stabilize update_fingers
    rw [hus]
  rw [hstab]
  refine ⟨?_, h4, by rw [h2, hcur], by rw [h3, hpred], fun t ht => ?_,
    fun t ht => ?_⟩
  · rw [h1, if_pos (by omega)]
  · rw [h5 t, if_pos (by omega)]
  · rw [h5 t, if_neg (by omega), hft]

set_option maxRecDepth 8192 in
/-- C9 counterexample: in this tick only the lookup for finger 0 fails and
finger 1's own lookup succeeds (with peer 9), yet the tick leaves finger 1
unrefreshed — the first failing lookup aborts the rest of the finger loop. -/
theorem stabilize_counterexample :
    exFind (idAdd exR9.current.identifier (withBit (255 - 1)))
      (update_successor_candidate exIdentN exR9 1).successor.value =
      Except.ok 9 ∧
    (stabilize exIdentN exNotify exFind exR9).1 = Except.error () ∧
    (stabilize exIdentN exNotify exFind exR9).2.finger_table.get? 1 =
      some ⟨0, mkId 0⟩ ∧
    (stabilize exIdentN exNotify exFind exR9).2.finger_table.get? 1 ≠
      some (IdentifierValue.new exIdentN 9) := by
  refine ⟨by decide, by decide, by decide, by decide⟩

set_option maxRecDepth 8192 in
/-- Witness for `stabilize_partial_failure` at the C9 instance: finger 0's
lookup fails, the tick reports the error and finger 1 keeps its old value. -/
theorem stabilize_partial_failure_witness :
    (stabilize exIdentN exNotify exFind exR9).1 = Except.error () ∧
    (stabilize exIdentN exNotify exFind exR9).2.finger_table.get? 1 =
      exR9.finger_table.get? 1 :=
  ⟨(stabilize_partial_failure exIdentN exNotify exFind exR9 0 1 (fun _ => 9)
      (by decide) (by decide) (by decide) (by decide)
      (by decide)).1,
   (stabilize_partial_failure exIdentN exNotify exFind exR9 0 1 (fun _ => 9)
      (by decide) (by decide) (by decide) (by decide)
      (by decide)).2.2.2.2.2 1 (by omega)⟩

theorem readU8_cons (b : Nat) (r : List Nat) :
    readU8 (b :: r) = Except.ok (b, r) := rfl

theorem readU16_u16be (v : Nat) (r : List Nat) (h : v < 65536) :
    readU16 (u16be v ++ r) = Except.ok (v, r) := by
  have hv : 256 * (v / 256 % 256) + v % 256 = v := by omega
  simp only [u16be, List.cons_append, List.nil_append, readU16, hv]

theorem readU8_u8be (v : Nat) (r : List Nat) (h : v < 256) :
    readU8 (u8be v ++ r) = Except.ok (v, r) := by
  have hv : v % 256 = v := Nat.mod_eq_of_lt h
  simp only [u8be, List.cons_append, List.nil_append, readU8, hv]

theorem readExact_append (n : Nat) (a b : List Nat) (h : a.length = n) :
    readExact n (a ++ b) = Except.ok (a, b) := by
  subst h
  unfold readExact
  rw [if_pos (by simp), List.take_left, List.drop_left]

theorem readExact_whole (n : Nat) (a : List Nat) (h : a.length = n) :
    readExact n a = Except.ok (a, []) := by
  subst h
  unfold readExact
  rw [if_pos le_rfl, List.take_length, List.drop_length]

theorem write_to_ok (m : Message) (cap : Nat)
    (h : 4 + (payloadBytes m).length ≤ cap) :
    Message.write_to m cap =
      Except.ok (4 + (payloadBytes m).length, frameBytes m) := by
  have e1 : wappend cap [] (u16be 0) = Except.ok (u16be 0) := by
    unfold wappend
    rw [if_pos (by simp [u16be]; omega), List.nil_append]
  have e2 : wappend cap (u16be 0) (u16be m.code) =
      Except.ok (u16be 0 ++ u16be m.code) := by
    unfold wappend
    rw [if_pos (by simp [u16be]; omega)]
  have e3 : wappend cap (u16be 0 ++ u16be m.code) (payloadBytes m) =
      Except.ok (u16be 0 ++ u16be m.code ++ payloadBytes m) := by
    unfold wappend
    rw [if_pos (by simp [u16be]; omega)]
  have hlen : (u16be 0 ++ u16be m.code ++ payloadBytes m).length =
      4 + (payloadBytes m).length := by
    simp [u16be]
    omega
  have hdrop : (u16be 0 ++ u16be m.code ++ payloadBytes m).drop 2 =
      u16be m.code ++ payloadBytes m := by
    rw [show u16be 0 = [0, 0] from by norm_num [u16be]]
    rfl
  simp only [Message.write_to, e1, e2, e3]
  rw [hlen, hdrop]
  unfold frameBytes
  exact rfl

theorem write_to_err (m : Message) (cap : Nat)
    (h : cap < 4 + (payloadBytes m).length) :
    Message.write_to m cap = Except.error () := by
  unfold Message.write_to
  by_cases c1 : 2 ≤ cap
  · have e1 : wappend cap [] (u16be 0) = Except.ok (u16be 0) := by
      unfold wappend
      rw [if_pos (by simp [u16be]; omega), List.nil_append]
    rw [e1]
    dsimp only
    by_cases c2 : 4 ≤ cap
    · have e2 : wappend cap (u16be 0) (u16be m.code) =
          Except.ok (u16be 0 ++ u16be m.code) := by
        unfold wappend
        rw [if_pos (by simp [u16be]; omega)]
      rw [e2]
      dsimp only
      have e3 : wappend cap (u16be 0 ++ u16be m.code) (payloadBytes m) =
          Except.error () := by
        unfold wappend
        rw [if_neg (by simp [u16be]; omega)]
      rw [e3]
    · have e2 : wappend cap (u16be 0) (u16be m.code) = Except.error () := by
        unfold wappend
        rw [if_neg (by simp [u16be]; omega)]
      rw [e2]
  · have e1 : wappend cap [] (u16be 0) = Except.error () := by
      unfold wappend
      rw [if_neg (by simp [u16be]; omega)]
    rw [e1]

/-- C5: encoding reserves two size bytes, writes the type code and payload,
then backpatches the total size at offset 0 (the successful result is
`size-field ++ type-code ++ payload` with the size equal to the total
length); against the 64000-byte send buffer, a total encoded size above
64000 makes encoding fail with an error instead of producing output. -/
theorem write_to_spec (m : Message) :
    (4 + (payloadBytes m).length ≤ 64000 →
      Message.write_to m 64000 =
        Except.ok (4 + (payloadBytes m).length,
          u16be (4 + (payloadBytes m).length) ++
            (u16be m.code ++ payloadBytes m))) ∧
    (64000 < 4 + (payloadBytes m).length →
      Message.write_to m 64000 = Except.error ()) :=
  ⟨fun h => write_to_ok m 64000 h, fun h => write_to_err m 64000 h⟩

/-- Witness for `write_to_spec`: a `DhtGet` encodes into its 36-byte frame
and a `StoragePut` with a 64000-byte value fails. -/
theorem write_to_spec_witness :
    Message.write_to (Message.dhtGet (List.replicate 32 3)) 64000 =
      Except.ok (36, u16be 36 ++
        (u16be 651 ++ payloadBytes (Message.dhtGet (List.replicate 32 3)))) ∧
    Message.write_to
      (Message.storagePut 0 0 (List.replicate 32 0) (List.replicate 64000 0))
      64000 = Except.error () :=
  ⟨(write_to_spec (Message.dhtGet (List.replicate 32 3))).1 (by decide),
   (write_to_spec (Message.storagePut 0 0 (List.replicate 32 0)
      (List.replicate 64000 0))).2
    (by
      have hlen : (payloadBytes (Message.storagePut 0 0 (List.replicate 32 0)
          (List.replicate 64000 0))).length = 64036 := by
        show (u16be 0 ++ (u8be 0 ++ ([0] ++
          (List.replicate 32 (0 : Nat) ++ List.replicate 64000 0)))).length = 64036
        rw [List.length_append, List.length_append, List.length_append,
          List.length_append, List.length_replicate, List.length_replicate]
        rfl
      rw [hlen]
      omega)⟩

/-- C4 (amended): `Message::parse` rejects a declared size below 4 with
`InvalidInput` ("Size must include header", checked after the four header
bytes have been read) and an unknown type code with `InvalidInput`
("Invalid message type"); it performs no comparison between the declared
size and the number of bytes available. -/
theorem parse_invalid_spec (b0 b1 b2 b3 : Nat) (rest : List Nat) :
    (256 * b0 + b1 < 4 →
      Message.parse (b0 :: b1 :: b2 :: b3 :: rest) =
        Except.error ParseErr.invalidSize) ∧
    (4 ≤ 256 * b0 + b1 →
      (256 * b2 + b3) ∉ ([650, 651, 652, 653, 1000, 1001, 1002, 1003, 1004,
        1050, 1051, 1052, 1053] : List Nat) →
      Message.parse (b0 :: b1 :: b2 :: b3 :: rest) =
        Except.error ParseErr.invalidType) ∧
    ParseErr.invalidSize.kind = ErrKind.invalidInput ∧
    ParseErr.invalidType.kind = ErrKind.invalidInput := by
  refine ⟨fun h => ?_, fun h hcode => ?_, rfl, rfl⟩
  · unfold Message.parse readU16
    dsimp only
    rw [if_pos h]
  · simp only [List.mem_cons, List.not_mem_nil, or_false, not_or] at hcode
    obtain ⟨h1, h2, h3, h4, h5, h6, h7, h8, h9, h10, h11, h12, h13⟩ := hcode
    unfold Message.parse readU16
    dsimp only
    rw [if_neg (by omega)]
    unfold parseDispatch
    rw [if_neg h1, if_neg h2, if_neg h3, if_neg h4, if_neg h5, if_neg h6,
      if_neg h7, if_neg h8, if_neg h9, if_neg h10, if_neg h11, if_neg h12,
      if_neg h13]

/-- Witness for `parse_invalid_spec` at the repo's own test inputs
(`message_parse_zero_size` and `message_parse_invalid_message_type`). -/
theorem parse_invalid_spec_witness :
    Message.parse [0, 0, 4, 28] = Except.error ParseErr.invalidSize ∧
    Message.parse [0, 4, 2, 14] = Except.error ParseErr.invalidType :=
  ⟨(parse_invalid_spec 0 0 4 28 []).1 (by decide),
   (parse_invalid_spec 0 4 2 14 []).2.1 (by decide) (by decide)⟩

set_option maxRecDepth 8192 in
/-- C4 counterexample: a frame declaring size 40 while 44 bytes are
available parses successfully to a `DhtGet` (the trailing noise is ignored),
so a size/available mismatch is not an `InvalidInput` error and a message
value is produced (this is the repo's own `message_parse` test shape). -/
theorem parse_size_mismatch_counterexample :
    Message.parse
      ([0, 40, 2, 139] ++ (List.replicate 32 3 ++ List.replicate 8 9)) =
      Except.ok (Message.dhtGet (List.replicate 32 3)) ∧
    sizeField
      ([0, 40, 2, 139] ++ (List.replicate 32 3 ++ List.replicate 8 9)) = 40 ∧
    ([0, 40, 2, 139] ++ (List.replicate 32 3 ++ List.replicate 8 9)).length =
      44 := by
  refine ⟨by decide, by decide, by decide⟩

theorem ipToWire_length (ip : IpAddr) (h : ipWf ip = true) :
    (ipToWire ip).length = 16 := by
  cases ip with
  | v4 a b c d => rfl
  | v6 o =>
    simp only [ipWf, Bool.and_eq_true, decide_eq_true_eq] at h
    exact h.1

theorem ipFromWire_toWire (ip : IpAddr) (hok : ipNotConvertible ip = true) :
    ipFromWire (ipToWire ip) = ip := by
  cases ip with
  | v4 a b c d =>
    unfold ipToWire ipFromWire
    rw [if_pos ⟨rfl, Or.inr ⟨rfl, rfl⟩⟩]
    rfl
  | v6 o =>
    simp only [ipNotConvertible, Bool.not_eq_true', decide_eq_false_iff_not]
      at hok
    unfold ipToWire ipFromWire
    rw [if_neg hok]

theorem parseSockAddr_bytes (sa : SockAddr) (hwf : sockAddrWf sa = true)
    (hok : ipNotConvertible sa.ip = true) (rest : List Nat) :
    parseSockAddr (sockAddrBytes sa ++ rest) = Except.ok (sa, rest) := by
  have hip : ipWf sa.ip = true ∧ sa.port < 65536 := by
    simpa [sockAddrWf, Bool.and_eq_true, decide_eq_true_eq] using hwf
  unfold parseSockAddr sockAddrBytes
  rw [List.append_assoc, readExact_append 16 _ _ (ipToWire_length _ hip.1)]
  dsimp only
  rw [readU16_u16be _ _ hip.2]
  dsimp only
  rw [ipFromWire_toWire _ hok]

theorem message_code_lt (m : Message) : m.code < 65536 := by
  cases m <;> simp [Message.code]

theorem parseDispatch_frame (m : Message) (hwf : m.payloadWf = true)
    (hok : m.addrPreserved = true) :
    parseDispatch m.code (payloadBytes m) = Except.ok m := by
  cases m with
  | dhtPut ttl repl key value =>
    simp only [Message.payloadWf, Bool.and_eq_true, decide_eq_true_eq] at hwf
    obtain ⟨⟨⟨⟨httl, hrepl⟩, hkey⟩, -⟩, -⟩ := hwf
    show parseDhtPut (payloadBytes (Message.dhtPut ttl repl key value)) = _
    unfold parseDhtPut payloadBytes
    rw [readU16_u16be _ _ httl]
    dsimp only
    rw [readU8_u8be _ _ hrepl]
    dsimp only
    rw [show ([0] ++ (key ++ value) : List Nat) = 0 :: (key ++ value) from rfl,
      readU8_cons]
    dsimp only
    rw [readExact_append 32 _ _ hkey]
  | dhtGet key =>
    simp only [Message.payloadWf, Bool.and_eq_true, decide_eq_true_eq] at hwf
    obtain ⟨hkey, -⟩ := hwf
    show parseDhtGet (payloadBytes (Message.dhtGet key)) = _
    unfold parseDhtGet payloadBytes
    rw [readExact_whole 32 _ hkey]
  | dhtSuccess key value =>
    simp only [Message.payloadWf, Bool.and_eq_true, decide_eq_true_eq] at hwf
    obtain ⟨⟨hkey, -⟩, -⟩ := hwf
    show parseDhtSuccess (payloadBytes (Message.dhtSuccess key value)) = _
    unfold parseDhtSuccess payloadBytes
    rw [readExact_append 32 _ _ hkey]
  | dhtFailure key =>
    simp only [Message.payloadWf, Bool.and_eq_true, decide_eq_true_eq] at hwf
    obtain ⟨hkey, -⟩ := hwf
    show parseDhtFailure (payloadBytes (Message.dhtFailure key)) = _
    unfold parseDhtFailure payloadBytes
    rw [readExact_whole 32 _ hkey]
  | storageGet ri key =>
    simp only [Message.payloadWf, Bool.and_eq_true, decide_eq_true_eq] at hwf
    obtain ⟨⟨hri, hkey⟩, -⟩ := hwf
    show parseStorageGet (payloadBytes (Message.storageGet ri key)) = _
    unfold parseStorageGet payloadBytes
    rw [readU8_u8be _ _ hri]
    dsimp only
    rw [show ([0, 0, 0] ++ key : List Nat) = 0 :: 0 :: 0 :: key from rfl,
      readU8_cons]
    dsimp only
    rw [readU8_cons]
    dsimp only
    rw [readU8_cons]
    dsimp only
    rw [readExact_whole 32 _ hkey]
  | storagePut ttl ri key value =>
    simp only [Message.payloadWf, Bool.and_eq_true, decide_eq_true_eq] at hwf
    obtain ⟨⟨⟨⟨httl, hri⟩, hkey⟩, -⟩, -⟩ := hwf
    show parseStoragePut (payloadBytes (Message.storagePut ttl ri key value)) = _
    unfold parseStoragePut payloadBytes
    rw [readU16_u16be _ _ httl]
    dsimp only
    rw [readU8_u8be _ _ hri]
    dsimp only
    rw [show ([0] ++ (key ++ value) : List Nat) = 0 :: (key ++ value) from rfl,
      readU8_cons]
    dsimp only
    rw [readExact_append 32 _ _ hkey]
  | storageGetSuccess key value =>
    simp only [Message.payloadWf, Bool.and_eq_true, decide_eq_true_eq] at hwf
    obtain ⟨⟨hkey, -⟩, -⟩ := hwf
    show parseStorageGetSuccess
      (payloadBytes (Message.storageGetSuccess key value)) = _
    unfold parseStorageGetSuccess payloadBytes
    rw [readExact_append 32 _ _ hkey]
  | storagePutSuccess key =>
    simp only [Message.payloadWf, Bool.and_eq_true, decide_eq_true_eq] at hwf
    obtain ⟨hkey, -⟩ := hwf
    show parseStoragePutSuccess
      (payloadBytes (Message.storagePutSuccess key)) = _
    unfold parseStoragePutSuccess payloadBytes
    rw [readExact_whole 32 _ hkey]
  | storageFailure key =>
    simp only [Message.payloadWf, Bool.and_eq_true, decide_eq_true_eq] at hwf
    obtain ⟨hkey, -⟩ := hwf
    show parseStorageFailure (payloadBytes (Message.storageFailure key)) = _
    unfold parseStorageFailure payloadBytes
    rw [readExact_whole 32 _ hkey]
  | peerFind idb =>
    simp only [Message.payloadWf, Bool.and_eq_true, decide_eq_true_eq] at hwf
    obtain ⟨hid, -⟩ := hwf
    show parsePeerFind (payloadBytes (Message.peerFind idb)) = _
    unfold parsePeerFind payloadBytes
    rw [readExact_whole 32 _ hid]
  | peerFound idb sa =>
    simp only [Message.payloadWf, Bool.and_eq_true, decide_eq_true_eq] at hwf
    simp only [Message.addrPreserved] at hok
    obtain ⟨⟨hid, -⟩, hsa⟩ := hwf
    show parsePeerFound (payloadBytes (Message.peerFound idb sa)) = _
    unfold parsePeerFound payloadBytes
    rw [readExact_append 32 _ _ hid]
    dsimp only
    rw [show sockAddrBytes sa = sockAddrBytes sa ++ [] from
      (List.append_nil _).symm, parseSockAddr_bytes sa hsa hok []]
  | predecessorNotify sa =>
    simp only [Message.payloadWf] at hwf
    simp only [Message.addrPreserved] at hok
    show parsePredecessorNotify
      (payloadBytes (Message.predecessorNotify sa)) = _
    unfold parsePredecessorNotify payloadBytes
    dsimp only
    rw [show sockAddrBytes sa = sockAddrBytes sa ++ [] from
      (List.append_nil _).symm, parseSockAddr_bytes sa hwf hok []]
  | predecessorReply sa =>
    simp only [Message.payloadWf] at hwf
    simp only [Message.addrPreserved] at hok
    show parsePredecessorReply
      (payloadBytes (Message.predecessorReply sa)) = _
    unfold parsePredecessorReply payloadBytes
    dsimp only
    rw [show sockAddrBytes sa = sockAddrBytes sa ++ [] from
      (List.append_nil _).symm, parseSockAddr_bytes sa hwf hok []]

/-- C6 (amended): for every well-formed message whose socket addresses
survive the decode direction (V4 addresses always do; V6 addresses do
exactly when outside the IPv4-compatible/IPv4-mapped block, where
`Ipv6Addr::to_ipv4` rewrites them to V4), encoding succeeds, parsing the
encoded bytes returns the message back, and the encoded length equals the
declared 2-byte size field. -/
theorem parse_write_roundtrip (m : Message) (hwf : m.wf = true)
    (hok : m.addrPreserved = true) :
    Message.write_to m 64000 =
      Except.ok (4 + (payloadBytes m).length, frameBytes m) ∧
    Message.parse (frameBytes m) = Except.ok m ∧
    (frameBytes m).length = sizeField (frameBytes m) := by
  obtain ⟨hpwf, hsize⟩ : m.payloadWf = true ∧
      4 + (payloadBytes m).length ≤ 64000 := by
    simpa [Message.wf, Bool.and_eq_true, decide_eq_true_eq] using hwf
  refine ⟨write_to_ok m 64000 hsize, ?_, ?_⟩
  · unfold Message.parse frameBytes
    rw [readU16_u16be _ _ (by omega)]
    dsimp only
    rw [readU16_u16be _ _ (message_code_lt m)]
    dsimp only
    rw [if_neg (by omega)]
    rw [show 4 + (payloadBytes m).length - 4 = (payloadBytes m).length from
      by omega, List.take_length]
    exact parseDispatch_frame m hpwf hok
  · unfold frameBytes sizeField u16be
    simp only [List.cons_append, List.length_cons, List.length_append,
      List.length_nil]
    omega

/-- Witness for `parse_write_roundtrip`: the spec's wire-frame scenario,
`DhtPut(ttl = 12, replication = 4, key = [3; 32], value = [1, 2, 3, 4, 5])`,
a 45-byte frame. -/
theorem parse_write_roundtrip_witness :
    Message.write_to (Message.dhtPut 12 4 (List.replicate 32 3)
        [1, 2, 3, 4, 5]) 64000 =
      Except.ok (45, frameBytes (Message.dhtPut 12 4 (List.replicate 32 3)
        [1, 2, 3, 4, 5])) ∧
    Message.parse (frameBytes (Message.dhtPut 12 4 (List.replicate 32 3)
        [1, 2, 3, 4, 5])) =
      Except.ok (Message.dhtPut 12 4 (List.replicate 32 3) [1, 2, 3, 4, 5]) :=
  ⟨(parse_write_roundtrip (Message.dhtPut 12 4 (List.replicate 32 3)
      [1, 2, 3, 4, 5]) (by decide) (by decide)).1,
   (parse_write_roundtrip (Message.dhtPut 12 4 (List.replicate 32 3)
      [1, 2, 3, 4, 5]) (by decide) (by decide)).2.1⟩

set_option maxRecDepth 8192 in
/-- C6 counterexample: the well-formed message `PredecessorNotify([::1]:8080)`
encodes successfully, but parsing the encoded bytes yields
`PredecessorNotify(0.0.0.1:8080)` — `Ipv6Addr::to_ipv4` converts the
IPv4-compatible V6 address on decode, so the round trip is not the
identity. -/
theorem parse_write_roundtrip_counterexample :
    Message.wf exMsgV6 = true ∧
    connection_send exMsgV6 = Except.ok (frameBytes exMsgV6) ∧
    Message.parse (frameBytes exMsgV6) = Except.ok exMsgV4 ∧
    exMsgV4 ≠ exMsgV6 := by
  refine ⟨by decide, by decide, by decide, by decide⟩

end Chord
